import Mathlib

/-!
Verification development for the AI_Agent repository.

Shallow embedding of the subsystems described in the specification:
bounded conversation history (src/domain/value_objects/history.py and
message.py), the metrics collector (src/infra/config/metrics.py), the
retry-with-backoff wrapper (src/infra/config/retry.py) and the
sensitive-data redaction filter (src/infra/config/sensitive_data_filter.py).

Modeling conventions:
* Python lists and deques are Lean lists; a deque with `maxlen` keeps the
  last `maxlen` elements after every append.
* Python exceptions are `Except` / explicit error values.
* Python floats are modeled as rationals; no proved statement depends on
  float rounding.
* Python regular expressions are embedded as a small backtracking matcher
  over a restricted regex AST that covers exactly the constructs used by
  the source patterns.
-/

namespace AIAgent

/-- The last `n` elements of a list, in order.  This is what a Python
`deque(xs, maxlen := n)` retains. -/
def takeLast (n : Nat) (xs : List α) : List α := xs.drop (xs.length - n)

/-- Roles of a chat message, from `MessageRole` in
src/src/domain/value_objects/message.py. -/
inductive MessageRole where
  | system
  | user
  | assistant
deriving DecidableEq, Repr

/-- The `Message` value object (message.py).  A Lean `Message` corresponds to a
successfully constructed Python `Message`, whose `__post_init__` has already
validated the role and the non-empty content. -/
structure Message where
  role : MessageRole
  content : String
deriving DecidableEq, Repr

/-- A Python value passed for `max_size`: an `int`, or anything that is not an
`int` (the `isinstance(self.max_size, int)` check in `History.__post_init__`,
with no implicit coercion). -/
inductive PyArg where
  | int (i : Int)
  | notInt
deriving DecidableEq, Repr

/-- Python exception values relevant to the embedded code. -/
inductive PyError where
  | valueError (msg : String)
  | typeError (msg : String)
deriving DecidableEq, Repr

/-- The `History` value object (history.py).  `_messages` is the content of the
`deque` with `maxlen = max_size`; the construction path guarantees
`max_size > 0` and that `_messages` holds at most `max_size` messages. -/
structure History where
  max_size : Nat
  msgs : List Message
deriving DecidableEq, Repr

/-- `History.__post_init__` (history.py lines 21-27): raises `ValueError` when
`max_size` is not an `int` or is `≤ 0`; otherwise wraps the initial messages in
a `deque` with `maxlen = max_size`, which keeps only the most recent ones. -/
def History.postInit (max_size : PyArg) (messages : List Message) :
    Except PyError History :=
  match max_size with
  | .int i =>
      if i ≤ 0 then
        .error (.valueError "Tamanho máximo do histórico deve ser maior que zero")
      else
        .ok { max_size := i.toNat, msgs := takeLast i.toNat messages }
  | .notInt =>
      .error (.valueError "Tamanho máximo do histórico deve ser maior que zero")

/-- `History.add` (history.py lines 29-40): appends to the `deque`, whose
`maxlen` silently evicts the oldest message when full.  The
`isinstance(message, Message)` guard cannot fire here because the argument is
already a (valid) `Message`, so `add` is total: it never raises. -/
def History.add (h : History) (m : Message) : History :=
  { h with msgs := takeLast h.max_size (h.msgs ++ [m]) }

/-- A sequence of `History.add` calls, oldest first. -/
def History.addAll (h : History) (ms : List Message) : History :=
  ms.foldl History.add h

/-- `ChatMetrics` (metrics.py lines 14-37).  Latency is a rational, the
timestamp is abstracted to a natural number. -/
structure ChatMetrics where
  model : String
  latency_ms : ℚ
  tokens_used : Option Int
  prompt_tokens : Option Int
  completion_tokens : Option Int
  timestamp : Nat
  success : Bool
  error_message : Option String
deriving DecidableEq, Repr

/-- `MetricsCollector.add` (metrics.py lines 67-69): a plain
`self._metrics.append(metrics)` on a plain list — there is no capacity
parameter and no eviction anywhere in the class. -/
def MetricsCollector.add (ms : List ChatMetrics) (m : ChatMetrics) :
    List ChatMetrics :=
  ms ++ [m]

/-- A sequence of `MetricsCollector.add` calls, oldest first. -/
def MetricsCollector.addAll (ms : List ChatMetrics) (l : List ChatMetrics) :
    List ChatMetrics :=
  l.foldl MetricsCollector.add ms

/-- Minimum of a list of rationals, as Python `min(list)` on a non-empty list. -/
def listMin (l : List ℚ) : ℚ :=
  match l with
  | [] => 0
  | x :: xs => xs.foldl min x

/-- Maximum of a list of rationals, as Python `max(list)` on a non-empty list. -/
def listMax (l : List ℚ) : ℚ :=
  match l with
  | [] => 0
  | x :: xs => xs.foldl max x

/-- `MetricsCollector.get_summary` (metrics.py lines 75-102).  The returned
dict is modeled as an ordered association list; all numeric values are
rationals. -/
def MetricsCollector.get_summary (ms : List ChatMetrics) : List (String × ℚ) :=
  if ms.isEmpty then [("total_requests", 0)]
  else
    let total_requests : ℚ := ms.length
    let successful : ℚ := (ms.filter (fun m => m.success)).length
    let failed : ℚ := total_requests - successful
    let latencies : List ℚ := ms.map (fun m => m.latency_ms)
    let avg_latency : ℚ := latencies.sum / (latencies.length : ℚ)
    let min_latency : ℚ := listMin latencies
    let max_latency : ℚ := listMax latencies
    let total_tokens : ℚ :=
      ((ms.filterMap (fun m => m.tokens_used)).sum : Int)
    [("total_requests", total_requests),
     ("successful", successful),
     ("failed", failed),
     ("success_rate", successful / total_requests * 100),
     ("avg_latency_ms", avg_latency),
     ("min_latency_ms", min_latency),
     ("max_latency_ms", max_latency),
     ("total_tokens", total_tokens)]

/-! ### Sensitive data filter (src/src/infra/config/sensitive_data_filter.py)

The source applies, in order, the compiled regexes of
`SensitiveDataFilter._PATTERNS` with `re.sub`.  The patterns use only:
literal sequences, alternations of literal sequences, greedy counted
repetitions of character classes, word boundaries and capture groups.  They
are embedded into the restricted AST `RElem` below and run by a fueled
backtracking matcher with Python `re` semantics (leftmost match,
left-to-right alternation, greedy repetition with backtracking).  ASCII
readings of `\w`, `\s`, `\d` are used; all inputs appearing in the theorems
are ASCII. -/

/-- ASCII lower-casing, as `re.IGNORECASE` folding for ASCII text. -/
def lowerChar (c : Char) : Char :=
  if 'A' ≤ c ∧ c ≤ 'Z' then Char.ofNat (c.toNat + 32) else c

/-- Python `\w` (ASCII): letters, digits, underscore. -/
def isWordChar (c : Char) : Bool := c.isAlpha || c.isDigit || c = '_'

/-- Python `\s` (ASCII): space, tab, newline, carriage return, vertical tab,
form feed. -/
def isSpaceChar (c : Char) : Bool :=
  c = ' ' || c = '\t' || c = '\n' || c = '\r' || c = '\x0b' || c = '\x0c'

/-- The double-quote character. -/
def quoteD : Char := Char.ofNat 34

/-- The single-quote character. -/
def quoteS : Char := Char.ofNat 39

/-- The closing-brace character. -/
def braceR : Char := Char.ofNat 125

/-- Restricted regex AST: exactly the constructs appearing in the source
patterns.  `cls p lo hi` is a greedy repetition of a character class with at
least `lo` and (when `hi = some h`) at most `h` occurrences; `hi = none`
means unbounded.  `gOpen`/`gClose` delimit capture group `n`. -/
inductive RElem where
  | lit (l : List Char)
  | alt (ls : List (List Char))
  | cls (p : Char → Bool) (lo : Nat) (hi : Option Nat)
  | wb
  | gOpen (n : Nat)
  | gClose (n : Nat)

/-- A piece of a `re.sub` replacement template: literal text or a
backreference `\n` to capture group `n`. -/
inductive RepPiece where
  | str (s : List Char)
  | ref (n : Nat)

/-- One entry of `_PATTERNS` together with how `_filter_cached` substitutes
it: case-insensitivity flag, compiled pattern, replacement template. -/
structure RePattern where
  ci : Bool
  elems : List RElem
  rep : List RepPiece

/-- Match a literal character sequence against a prefix of the input,
returning the remaining input. -/
def litMatch (ci : Bool) : List Char → List Char → Option (List Char)
  | [], s => some s
  | _ :: _, [] => none
  | p :: ps, c :: cs =>
      if (if ci then lowerChar p = lowerChar c else p = c) then litMatch ci ps cs
      else none

/-- Length of the maximal prefix of the input whose characters satisfy `p`. -/
def runLen (p : Char → Bool) : List Char → Nat
  | [] => 0
  | c :: cs => if p c then runLen p cs + 1 else 0

/-- The last character of `consumed`, or `prev` if nothing was consumed; used
to maintain the preceding-character context for `\b`. -/
def lastOr (consumed : List Char) (prev : Option Char) : Option Char :=
  match consumed.getLast? with
  | some c => some c
  | none => prev

/-- Word boundary `\b`: exactly one of the adjacent characters is a word
character (string edges count as non-word). -/
def atBoundary (prev : Option Char) (s : List Char) : Bool :=
  (match prev with | some c => isWordChar c | none => false) !=
  (match s with | c :: _ => isWordChar c | [] => false)

/-- Backtracking matcher for the restricted AST, anchored at the current
position.  Returns the input remaining after the match together with the
captured groups.  Alternation is tried left to right; repetition is greedy
and backtracks by lowering its upper bound.  `fuel` bounds the number of
recursive calls; it is structurally decreasing so that the matcher computes
by kernel reduction, and every use below supplies fuel far above the search
space of the patterns involved (a failed proof of a concrete evaluation
would expose an insufficient bound). -/
def reMatch (ci : Bool) : Nat → List RElem → Option Char → List Char →
    List (Nat × List Char) → List (Nat × List Char) →
    Option (List Char × List (Nat × List Char))
  | 0, _, _, _, _, _ => none
  | _ + 1, [], _, s, _, caps => some (s, caps)
  | fuel + 1, .lit l :: rest, prev, s, opens, caps =>
      match litMatch ci l s with
      | none => none
      | some rem =>
          reMatch ci fuel rest (lastOr (s.take (s.length - rem.length)) prev)
            rem opens caps
  | fuel + 1, .alt ls :: rest, prev, s, opens, caps =>
      match ls with
      | [] => none
      | l :: ls2 =>
          match reMatch ci fuel (.lit l :: rest) prev s opens caps with
          | some r => some r
          | none => reMatch ci fuel (.alt ls2 :: rest) prev s opens caps
  | fuel + 1, .cls p lo hi :: rest, prev, s, opens, caps =>
      let run := runLen p s
      let kmax := match hi with | none => run | some h => min h run
      if kmax < lo then none
      else
        match reMatch ci fuel rest (lastOr (s.take kmax) prev) (s.drop kmax)
            opens caps with
        | some r => some r
        | none =>
            if lo < kmax then
              reMatch ci fuel (.cls p lo (some (kmax - 1)) :: rest) prev s
                opens caps
            else none
  | fuel + 1, .wb :: rest, prev, s, opens, caps =>
      if atBoundary prev s then reMatch ci fuel rest prev s opens caps else none
  | fuel + 1, .gOpen n :: rest, prev, s, opens, caps =>
      reMatch ci fuel rest prev s ((n, s) :: opens) caps
  | fuel + 1, .gClose n :: rest, prev, s, opens, caps =>
      match opens with
      | [] => none
      | (m, sOpen) :: opens2 =>
          if m = n then
            reMatch ci fuel rest prev s opens2
              ((n, sOpen.take (sOpen.length - s.length)) :: caps)
          else none

/-- Fuel given to the matcher at each position; far above the search space of
any of the embedded patterns on the strings considered. -/
def matchFuel : Nat := 1000000

/-- Captured text of group `n` (empty if the group did not participate;
every group of the source patterns participates whenever its pattern
matches). -/
def lookupCap (caps : List (Nat × List Char)) (n : Nat) : List Char :=
  match caps.find? (fun x => x.1 == n) with
  | some x => x.2
  | none => []

/-- Instantiate a replacement template with the captured groups. -/
def applyRep (rep : List RepPiece) (caps : List (Nat × List Char)) :
    List Char :=
  match rep with
  | [] => []
  | .str t :: rest => t ++ applyRep rest caps
  | .ref n :: rest => lookupCap caps n ++ applyRep rest caps

/-- The scan of `re.sub`: at each position try to match; on a (non-empty)
match emit the instantiated replacement and resume after the matched text,
otherwise emit the current character and advance by one.  `fuel` is the
number of remaining positions, initialized to the input length (every
source pattern only produces non-empty matches, so each step consumes at
least one character). -/
def subScanF (ci : Bool) (elems : List RElem) (rep : List RepPiece) :
    Nat → Option Char → List Char → List Char
  | 0, _, s => s
  | _ + 1, _, [] => []
  | fuel + 1, prev, c :: cs =>
      match reMatch ci matchFuel elems prev (c :: cs) [] [] with
      | some (rem, caps) =>
          if rem.length < cs.length + 1 then
            applyRep rep caps ++
              subScanF ci elems rep fuel
                (lastOr ((c :: cs).take (cs.length + 1 - rem.length)) prev) rem
          else c :: subScanF ci elems rep fuel (some c) cs
      | none => c :: subScanF ci elems rep fuel (some c) cs

/-- `pattern.sub(replacement, s)` for one embedded pattern. -/
def reSub (p : RePattern) (s : List Char) : List Char :=
  subScanF p.ci p.elems p.rep s.length none s

/-- Python `\s` characters (ASCII), used to expand `[\s]?` inside
alternations of literals. -/
def wsChars : List Char := [' ', '\t', '\n', '\r', '\x0b', '\x0c']

/-- `[\s:="\']`, the separator class after `api_key`, `secret` and `cvv`
labels. -/
def keySep (c : Char) : Bool :=
  isSpaceChar c || c = ':' || c = '=' || c = quoteD || c = quoteS

/-- `[a-zA-Z0-9_-]`, the JWT body class. -/
def jwtChar (c : Char) : Bool := c.isAlphanum || c = '_' || c = '-'

/-- `[\w\-]`. -/
def wordDash (c : Char) : Bool := isWordChar c || c = '-'

/-- `[\w\-._]`. -/
def bearerVal (c : Char) : Bool := isWordChar c || c = '-' || c = '.'

/-- `[\w\-._=]`. -/
def authVal (c : Char) : Bool := isWordChar c || c = '-' || c = '.' || c = '='

/-- `[\s:]`. -/
def wsColon (c : Char) : Bool := isSpaceChar c || c = ':'

/-- `[^:@\s]`. -/
def urlHostChar (c : Char) : Bool := !(c = ':' || c = '@' || isSpaceChar c)

/-- `[^@\s]`. -/
def urlPassChar (c : Char) : Bool := !(c = '@' || isSpaceChar c)

/-- `[\s:="\'\[]`, the separator class of the `password` pattern. -/
def pwSep (c : Char) : Bool := keySep c || c = '['

/-- `[^\s,\]"\'}@]`, the value class of the `password` pattern. -/
def pwVal (c : Char) : Bool :=
  !(isSpaceChar c || c = ',' || c = ']' || c = quoteD || c = quoteS ||
    c = braceR || c = '@')

/-- `[A-Za-z0-9._%+-]`. -/
def emailLocal (c : Char) : Bool :=
  c.isAlphanum || c = '.' || c = '_' || c = '%' || c = '+' || c = '-'

/-- `[A-Za-z0-9.-]`. -/
def emailDom (c : Char) : Bool := c.isAlphanum || c = '.' || c = '-'

/-- `[A-Z|a-z]` — the literal `|` inside the class is kept, as in the
source. -/
def tldChar (c : Char) : Bool := c.isAlpha || c = '|'

/-- `\d` (ASCII). -/
def digitC (c : Char) : Bool := c.isDigit

/-- `[0-9Xx]`. -/
def rgEnd (c : Char) : Bool := c.isDigit || c = 'X' || c = 'x'

/-- `[\s\-]`. -/
def cardSep (c : Char) : Bool := isSpaceChar c || c = '-'

/-- `[1-9]`. -/
def nonZeroDigit (c : Char) : Bool := c.isDigit && !(c = '0')

/-- `s?` under `re.IGNORECASE`. -/
def sChar (c : Char) : Bool := lowerChar c = 's'

/-- `_PATTERNS["jwt_token"]`:
`eyJ[a-zA-Z0-9_-]*\.eyJ[a-zA-Z0-9_-]*\.[a-zA-Z0-9_-]*`, full replacement. -/
def jwt_token : RePattern :=
  ⟨false,
   [.lit "eyJ".toList, .cls jwtChar 0 none, .lit ".".toList, .lit "eyJ".toList,
    .cls jwtChar 0 none, .lit ".".toList, .cls jwtChar 0 none],
   [.str "[JWT_TOKEN_REDACTED]".toList]⟩

/-- `_PATTERNS["api_key"]`: `(api[_-]?key[\s:="\']*)[\w\-]{6,}`, IGNORECASE,
full replacement. -/
def api_key : RePattern :=
  ⟨true,
   [.gOpen 1, .lit "api".toList, .cls (fun c => c = '_' || c = '-') 0 (some 1),
    .lit "key".toList, .cls keySep 0 none, .gClose 1, .cls wordDash 6 none],
   [.str "[API_KEY_REDACTED]".toList]⟩

/-- `_PATTERNS["bearer_token"]`: `(bearer[\s]+)[\w\-._]+`, IGNORECASE, full
replacement. -/
def bearer_token : RePattern :=
  ⟨true,
   [.gOpen 1, .lit "bearer".toList, .cls isSpaceChar 1 none, .gClose 1,
    .cls bearerVal 1 none],
   [.str "[BEARER_TOKEN_REDACTED]".toList]⟩

/-- `_PATTERNS["secret"]`: `(secret|secret_key)[\s:="\']*([\w\-]{8,})`,
IGNORECASE, replacement `\1[SECRET_REDACTED]`. -/
def secret : RePattern :=
  ⟨true,
   [.gOpen 1, .alt ["secret".toList, "secret_key".toList], .gClose 1,
    .cls keySep 0 none, .gOpen 2, .cls wordDash 8 none, .gClose 2],
   [.ref 1, .str "[SECRET_REDACTED]".toList]⟩

/-- `_PATTERNS["auth_header"]`:
`(authorization[\s:]+)(basic|bearer)[\s]+[\w\-._=]+`, IGNORECASE,
replacement `\1\2 [TOKEN_REDACTED]`. -/
def auth_header : RePattern :=
  ⟨true,
   [.gOpen 1, .lit "authorization".toList, .cls wsColon 1 none, .gClose 1,
    .gOpen 2, .alt ["basic".toList, "bearer".toList], .gClose 2,
    .cls isSpaceChar 1 none, .cls authVal 1 none],
   [.ref 1, .ref 2, .str " [TOKEN_REDACTED]".toList]⟩

/-- `_PATTERNS["url_with_password"]`: `(https?://[^:@\s]+):([^@\s]+)@`,
IGNORECASE, replacement `\1:[CREDENTIALS_REDACTED]@`. -/
def url_with_password : RePattern :=
  ⟨true,
   [.gOpen 1, .lit "http".toList, .cls sChar 0 (some 1), .lit "://".toList,
    .cls urlHostChar 1 none, .gClose 1, .lit ":".toList,
    .gOpen 2, .cls urlPassChar 1 none, .gClose 2, .lit "@".toList],
   [.ref 1, .str ":[CREDENTIALS_REDACTED]@".toList]⟩

/-- `_PATTERNS["password"]`:
`(password|senha|pwd|pass)[\s:="\'\[]*([^\s,\]"\'}@]{3,})`, IGNORECASE,
replacement `\1[PASSWORD_REDACTED]` — group 1 is only the label word; the
separator characters are consumed by the match. -/
def password : RePattern :=
  ⟨true,
   [.gOpen 1, .alt ["password".toList, "senha".toList, "pwd".toList,
      "pass".toList], .gClose 1,
    .cls pwSep 0 none, .gOpen 2, .cls pwVal 3 none, .gClose 2],
   [.ref 1, .str "[PASSWORD_REDACTED]".toList]⟩

/-- `_PATTERNS["email"]`:
`\b[A-Za-z0-9._%+-]+@[A-Za-z0-9.-]+\.[A-Z|a-z]{2,}\b`, full replacement. -/
def email : RePattern :=
  ⟨false,
   [.wb, .cls emailLocal 1 none, .lit "@".toList, .cls emailDom 1 none,
    .lit ".".toList, .cls tldChar 2 none, .wb],
   [.str "[EMAIL_REDACTED]".toList]⟩

/-- `_PATTERNS["cnpj"]`: `\b\d{2}\.?\d{3}\.?\d{3}/?\d{4}-?\d{2}\b`, full
replacement. -/
def cnpj : RePattern :=
  ⟨false,
   [.wb, .cls digitC 2 (some 2), .cls (fun c => c = '.') 0 (some 1),
    .cls digitC 3 (some 3), .cls (fun c => c = '.') 0 (some 1),
    .cls digitC 3 (some 3), .cls (fun c => c = '/') 0 (some 1),
    .cls digitC 4 (some 4), .cls (fun c => c = '-') 0 (some 1),
    .cls digitC 2 (some 2), .wb],
   [.str "[CNPJ_REDACTED]".toList]⟩

/-- `_PATTERNS["cpf"]`: `\b\d{3}\.?\d{3}\.?\d{3}-?\d{2}\b`, full
replacement. -/
def cpf : RePattern :=
  ⟨false,
   [.wb, .cls digitC 3 (some 3), .cls (fun c => c = '.') 0 (some 1),
    .cls digitC 3 (some 3), .cls (fun c => c = '.') 0 (some 1),
    .cls digitC 3 (some 3), .cls (fun c => c = '-') 0 (some 1),
    .cls digitC 2 (some 2), .wb],
   [.str "[CPF_REDACTED]".toList]⟩

/-- `_PATTERNS["rg"]`: `\b\d{1,2}\.?\d{3}\.?\d{3}-?[0-9Xx]\b`, full
replacement. -/
def rg : RePattern :=
  ⟨false,
   [.wb, .cls digitC 1 (some 2), .cls (fun c => c = '.') 0 (some 1),
    .cls digitC 3 (some 3), .cls (fun c => c = '.') 0 (some 1),
    .cls digitC 3 (some 3), .cls (fun c => c = '-') 0 (some 1),
    .cls rgEnd 1 (some 1), .wb],
   [.str "[RG_REDACTED]".toList]⟩

/-- `_PATTERNS["phone_br"]`:
`\b(?:\+55[\s]?)?\(?[1-9]{2}\)?[\s]?9[\s]?\d{4}-?\d{4}\b`, full replacement.
The optional group `(?:\+55[\s]?)?` is expanded into an alternation of
literals (longest first, matching the greedy trial order), ending with the
empty literal. -/
def phone_br : RePattern :=
  ⟨false,
   [.wb,
    .alt ((wsChars.map (fun w => "+55".toList ++ [w])) ++ ["+55".toList, []]),
    .cls (fun c => c = '(') 0 (some 1), .cls nonZeroDigit 2 (some 2),
    .cls (fun c => c = ')') 0 (some 1), .cls isSpaceChar 0 (some 1),
    .lit "9".toList, .cls isSpaceChar 0 (some 1), .cls digitC 4 (some 4),
    .cls (fun c => c = '-') 0 (some 1), .cls digitC 4 (some 4), .wb],
   [.str "[PHONE_BR_REDACTED]".toList]⟩

/-- `_PATTERNS["credit_card"]`:
`\b\d{4}[\s\-]?\d{4}[\s\-]?\d{4}[\s\-]?\d{4}\b`, full replacement. -/
def credit_card : RePattern :=
  ⟨false,
   [.wb, .cls digitC 4 (some 4), .cls cardSep 0 (some 1),
    .cls digitC 4 (some 4), .cls cardSep 0 (some 1), .cls digitC 4 (some 4),
    .cls cardSep 0 (some 1), .cls digitC 4 (some 4), .wb],
   [.str "[CREDIT_CARD_REDACTED]".toList]⟩

/-- `_PATTERNS["cvv"]`: `\b(cvv|cvc|security[\s]?code)[\s:="\']*([\d]{3,4})\b`,
IGNORECASE, replacement `\1[CVV_REDACTED]`.  `security[\s]?code` is expanded
into literals (with-separator variants first, matching the greedy trial
order). -/
def cvv : RePattern :=
  ⟨true,
   [.wb, .gOpen 1,
    .alt (["cvv".toList, "cvc".toList] ++
      (wsChars.map (fun w => "security".toList ++ [w] ++ "code".toList)) ++
      ["securitycode".toList]),
    .gClose 1, .cls keySep 0 none, .gOpen 2, .cls digitC 3 (some 4),
    .gClose 2, .wb],
   [.ref 1, .str "[CVV_REDACTED]".toList]⟩

/-- `_PATTERNS["ipv4"]`:
`\b(?:10|127|172\.(?:1[6-9]|2[0-9]|3[01])|192\.168)\.\d{1,3}\.\d{1,3}\b`,
full replacement.  The nested alternation over the 172.16-172.31 block is
expanded into literals in the same trial order. -/
def ipv4 : RePattern :=
  ⟨false,
   [.wb,
    .alt (["10".toList, "127".toList] ++
      (["16", "17", "18", "19", "20", "21", "22", "23", "24", "25", "26",
        "27", "28", "29", "30", "31"].map
          (fun t => "172.".toList ++ t.toList)) ++
      ["192.168".toList]),
    .lit ".".toList, .cls digitC 1 (some 3), .lit ".".toList,
    .cls digitC 1 (some 3), .wb],
   [.str "[IPV4_REDACTED]".toList]⟩

/-- `SensitiveDataFilter._PATTERNS` in insertion (= application) order. -/
def PATTERNS : List RePattern :=
  [jwt_token, api_key, bearer_token, secret, auth_header, url_with_password,
   password, email, cnpj, cpf, rg, phone_br, credit_card, cvv, ipv4]

/-- `SensitiveDataFilter._filter_cached` (lines 85-125): applies each pattern
in order with `re.sub`.  The `lru_cache` is pure memoization keyed on the
exact input and is modeled away. -/
def filterCached (text : List Char) : List Char :=
  PATTERNS.foldl (fun t p => reSub p t) text

/-- `SensitiveDataFilter.filter` (lines 127-146): empty (or missing) input is
returned unchanged, otherwise `_filter_cached` runs. -/
def SensitiveDataFilter.filter (text : String) : String :=
  if text = "" then text else String.mk (filterCached text.toList)

/-- Python slice `text[-n:]`: for `n = 0` this is the whole string — the
quirk `"abc"[-0:] = "abc"`. -/
def pySliceLast (n : Nat) (xs : List Char) : List Char :=
  if n = 0 then xs else takeLast n xs

/-- `SensitiveDataFilter.mask_partial` (lines 153-172), named `maskPartial`
here: `"*" * len(text)` when `len(text) <= visible_chars`, otherwise
`"*" * (len(text) - visible_chars) + text[-visible_chars:]`. -/
def maskPartial (text : List Char) (visible_chars : Nat) : List Char :=
  if text.length ≤ visible_chars then List.replicate text.length '*'
  else
    List.replicate (text.length - visible_chars) '*' ++
      pySliceLast visible_chars text

/-- Substring containment (`needle in hay` for Python strings). -/
def isSubList (needle hay : List Char) : Bool :=
  hay.tails.any (fun t => needle.isPrefixOf t)

/-- Substring containment on strings. -/
def strContains (hay needle : String) : Bool :=
  isSubList needle.toList hay.toList

/-- The outcome of calling a wrapped Python function: a returned value, a
raised exception, or the implicit `None` a function body falls through to. -/
inductive PyResult (ε α : Type) where
  | val (a : α)
  | exn (e : ε)
  | pyNone
deriving DecidableEq, Repr

/-- Observable outcome of one call of the retry wrapper: the result, how many
times the wrapped function was invoked, and the list of delays slept. -/
structure RetryOutcome (ε α : Type) where
  result : PyResult ε α
  calls : Nat
  sleeps : List ℚ
deriving DecidableEq, Repr

/-- `n` consecutive integers starting at `a`. -/
def pyRangeAux (a : Int) : Nat → List Int
  | 0 => []
  | n + 1 => a :: pyRangeAux (a + 1) n

/-- Python `range(a, b)` over integers: the integers from `a` (inclusive) to
`b` (exclusive). -/
def pyRange (a b : Int) : List Int := pyRangeAux a (b - a).toNat

/-- The `for attempt in range(1, max_attempts + 1)` loop of
`retry_with_backoff.wrapper` (retry.py lines 48-88).

* `attempts` is the list of attempt numbers still to run.
* `f k` is the behavior of the wrapped function on its `k`-th invocation
  (0-based): it returns a value or raises an exception.
* `retryable e` models `isinstance(e, exceptions)` — whether the raised
  exception has a type in the `exceptions` tuple; a non-retryable exception is
  not caught by the `except` clause and propagates at once.
* On the final attempt (`attempt = max_attempts`) the bare `raise` re-raises
  the caught exception itself.
* Otherwise the wrapper sleeps `delay * jitter_factor` (or `delay` if jitter
  is off), multiplies `delay` by `backoff_factor` and continues.  The random
  `1 + uniform(-0.1, 0.1)` draw is abstracted as the oracle `jitterF`.
* The `on_retry` callback and the log statements are effect-free with respect
  to the modeled observables (callback exceptions are swallowed), so they are
  omitted.
* When the loop ends without returning or raising (possible only when the
  range is empty) the wrapper re-raises `last_exception` if it is set and
  otherwise falls through, returning `None`. -/
def retryLoop (max_attempts : Int) (retryable : ε → Bool) (jitter : Bool)
    (jitterF : Nat → ℚ) (backoff_factor : ℚ) (f : Nat → Except ε α) :
    List Int → ℚ → Option ε → Nat → List ℚ → RetryOutcome ε α
  | [], _, last_exception, calls, sleeps =>
      match last_exception with
      | some e => ⟨.exn e, calls, sleeps⟩
      | none => ⟨.pyNone, calls, sleeps⟩
  | attempt :: rest, delay, _, calls, sleeps =>
      match f calls with
      | .ok a => ⟨.val a, calls + 1, sleeps⟩
      | .error e =>
          if retryable e then
            if attempt = max_attempts then
              ⟨.exn e, calls + 1, sleeps⟩
            else
              let actual_delay := if jitter then delay * jitterF calls else delay
              retryLoop max_attempts retryable jitter jitterF backoff_factor f
                rest (delay * backoff_factor) (some e) (calls + 1)
                (sleeps ++ [actual_delay])
          else ⟨.exn e, calls + 1, sleeps⟩

/-- `retry_with_backoff(...)` applied to a function, then called once
(retry.py lines 16-91): runs the attempt loop over
`range(1, max_attempts + 1)` starting with `delay = initial_delay`,
`last_exception = None`. -/
def retry_with_backoff (max_attempts : Int) (retryable : ε → Bool)
    (jitter : Bool) (jitterF : Nat → ℚ) (initial_delay backoff_factor : ℚ)
    (f : Nat → Except ε α) : RetryOutcome ε α :=
  retryLoop max_attempts retryable jitter jitterF backoff_factor f
    (pyRange 1 (max_attempts + 1)) initial_delay none 0 []

theorem takeLast_nil (n : Nat) : takeLast n ([] : List α) = [] := by
  simp [takeLast]

theorem takeLast_length (n : Nat) (xs : List α) :
    (takeLast n xs).length = min xs.length n := by
  simp [takeLast]
  omega

theorem takeLast_append_one (n : Nat) (xs : List α) (m : α) :
    takeLast n (takeLast n xs ++ [m]) = takeLast n (xs ++ [m]) := by
  unfold takeLast
  have h1 : xs.length - n ≤ xs.length := Nat.sub_le _ _
  rw [← List.drop_append_of_le_length h1, List.drop_drop]
  congr 1
  simp
  omega

theorem history_addAll_messages (N : Nat) (acc ms : List Message) :
    (History.addAll ⟨N, takeLast N acc⟩ ms).msgs = takeLast N (acc ++ ms) := by
  induction ms generalizing acc with
  | nil => simp [History.addAll]
  | cons m ms ih =>
      have hstep : History.add ⟨N, takeLast N acc⟩ m =
          ⟨N, takeLast N ((acc ++ [m]))⟩ := by
        simp [History.add, takeLast_append_one]
      calc (History.addAll ⟨N, takeLast N acc⟩ (m :: ms)).msgs
          = (History.addAll (History.add ⟨N, takeLast N acc⟩ m) ms).msgs := rfl
        _ = (History.addAll ⟨N, takeLast N (acc ++ [m])⟩ ms).msgs := by rw [hstep]
        _ = takeLast N ((acc ++ [m]) ++ ms) := ih (acc ++ [m])
        _ = takeLast N (acc ++ m :: ms) := by simp

theorem pyRange_cons (a b : Int) (h : a < b) :
    pyRange a b = a :: pyRange (a + 1) b := by
  unfold pyRange
  have hk : (b - a).toNat = (b - (a + 1)).toNat + 1 := by omega
  rw [hk, pyRangeAux]

theorem pyRange_empty (a b : Int) (h : b ≤ a) : pyRange a b = [] := by
  unfold pyRange
  have hk : (b - a).toNat = 0 := by omega
  rw [hk, pyRangeAux]

/-- If the wrapped function raises a retryable exception on every invocation,
the attempt loop started at attempt number `max_attempts - n` performs exactly
`n + 1` further calls and ends by raising the exception of the last call. -/
theorem retryLoop_all_fail (max_attempts : Int) (retryable : ε → Bool)
    (hr : ∀ e, retryable e = true) (jitter : Bool) (jitterF : Nat → ℚ)
    (bf : ℚ) (errs : Nat → ε) :
    ∀ (n : Nat) (a : Int), a = max_attempts - (n : Int) → 1 ≤ a →
    ∀ (delay : ℚ) (last : Option ε) (calls : Nat) (sleeps : List ℚ),
      (retryLoop max_attempts retryable jitter jitterF bf
          (fun k => Except.error (errs k) : Nat → Except ε α)
          (pyRange a (max_attempts + 1)) delay last calls sleeps).result
        = .exn (errs (calls + n)) ∧
      (retryLoop max_attempts retryable jitter jitterF bf
          (fun k => Except.error (errs k) : Nat → Except ε α)
          (pyRange a (max_attempts + 1)) delay last calls sleeps).calls
        = calls + n + 1 := by
  intro n
  induction n with
  | zero =>
      intro a ha h1 delay last calls sleeps
      have hab : a < max_attempts + 1 := by omega
      rw [pyRange_cons a (max_attempts + 1) hab]
      have haeq : a = max_attempts := by omega
      rw [retryLoop]
      simp [hr, haeq]
  | succ n ih =>
      intro a ha h1 delay last calls sleeps
      have hab : a < max_attempts + 1 := by omega
      rw [pyRange_cons a (max_attempts + 1) hab]
      have hane : ¬(a = max_attempts) := by omega
      rw [retryLoop]
      simp only [hr, if_true, hane, if_false]
      obtain ⟨h2, h3⟩ := ih (a + 1) (by omega) (by omega) (delay * bf)
        (some (errs calls)) (calls + 1)
        (sleeps ++ [if jitter then delay * jitterF calls else delay])
      have e1 : calls + (n + 1) = calls + 1 + n := by omega
      rw [e1]
      exact ⟨h2, h3⟩

theorem metricsAddAll_length (acc l : List ChatMetrics) :
    (MetricsCollector.addAll acc l).length = acc.length + l.length := by
  induction l generalizing acc with
  | nil => simp [MetricsCollector.addAll]
  | cons m t ih =>
      have hstep : MetricsCollector.addAll acc (m :: t) =
          MetricsCollector.addAll (acc ++ [m]) t := rfl
      rw [hstep, ih]
      simp
      omega

/-- Claim C2 (confirmed): for every History constructed with
`max_size = N > 0` and every sequence of `M > N` appends of valid Messages,
the resulting length is exactly `min(M, N)` and the retained messages are
exactly the last `N` appended, in their original insertion order.  `add` is
total on (valid) `Message` values — it has no error path; the oldest entry is
silently evicted when full. -/
theorem C2_history_bounded_fifo (N : Int) (h₀ : History)
    (hinit : History.postInit (.int N) [] = .ok h₀) (ms : List Message)
    (_hM : N < (ms.length : Int)) :
    (h₀.addAll ms).msgs = ms.drop (ms.length - N.toNat) ∧
    (h₀.addAll ms).msgs.length = min ms.length N.toNat := by
  have hN : ¬(N ≤ 0) := by
    intro hle
    simp only [History.postInit, if_pos hle] at hinit
    cases hinit
  have h₀eq : h₀ = ⟨N.toNat, takeLast N.toNat []⟩ := by
    simp only [History.postInit, if_neg hN] at hinit
    injection hinit with h
    exact h.symm
  subst h₀eq
  have key := history_addAll_messages N.toNat [] ms
  simp only [List.nil_append] at key
  refine ⟨?_, ?_⟩
  · rw [key]
    rfl
  · rw [key, takeLast_length]

/-- Witness for C2: `max_size = 2`, three appends; the two most recent
messages remain, in order. -/
theorem C2_history_bounded_fifo_witness :
    (History.addAll ⟨(2 : Int).toNat, takeLast (2 : Int).toNat []⟩
        [⟨.user, "a"⟩, ⟨.assistant, "b"⟩, ⟨.user, "c"⟩]).msgs =
      [(⟨.user, "a"⟩ : Message), ⟨.assistant, "b"⟩, ⟨.user, "c"⟩].drop
        ([(⟨.user, "a"⟩ : Message), ⟨.assistant, "b"⟩, ⟨.user, "c"⟩].length -
          (2 : Int).toNat) ∧
    (History.addAll ⟨(2 : Int).toNat, takeLast (2 : Int).toNat []⟩
        [⟨.user, "a"⟩, ⟨.assistant, "b"⟩, ⟨.user, "c"⟩]).msgs.length =
      min [(⟨.user, "a"⟩ : Message), ⟨.assistant, "b"⟩, ⟨.user, "c"⟩].length
        (2 : Int).toNat :=
  C2_history_bounded_fifo 2 ⟨(2 : Int).toNat, takeLast (2 : Int).toNat []⟩
    rfl [⟨.user, "a"⟩, ⟨.assistant, "b"⟩, ⟨.user, "c"⟩] (by decide)

/-- Claim C4 (confirmed): constructing a History with a `max_size` that is
not a positive integer — whether an `int ≤ 0` or not an `int` at all, with no
implicit coercion — raises `ValueError` from `__post_init__`, and no History
value is produced.  (The spec names this construction-time error
`ConfigurationError`; the code raises the built-in `ValueError`.) -/
theorem C4_history_bad_max_size (arg : PyArg) (msgs : List Message)
    (h : ∀ i : Int, arg = .int i → i ≤ 0) :
    History.postInit arg msgs =
      .error (.valueError
        "Tamanho máximo do histórico deve ser maior que zero") := by
  cases arg with
  | int i =>
      have hi := h i rfl
      simp only [History.postInit, if_pos hi]
  | notInt => rfl

/-- Witness for C4 at `max_size = 0`. -/
theorem C4_history_bad_max_size_witness :
    History.postInit (.int 0) [] =
      .error (.valueError
        "Tamanho máximo do histórico deve ser maior que zero") :=
  C4_history_bad_max_size (.int 0) []
    (fun i h => by cases h; decide)

/-- Claim C1 (code bug): `MetricsCollector` has no `max_metrics` capacity at
all — `__init__` accepts no such parameter and `add` is a plain list append —
so after `K + 5` adds all `K + 5` records remain, where the spec (and the
repository's own tests, e.g. `test_max_metrics_limit_enforced`) require only
the most recent `K`.  Concretely, 15 adds leave 15 records where the tests
demand 10. -/
theorem C1_metrics_collector_unbounded :
    (∀ l : List ChatMetrics,
      (MetricsCollector.addAll [] l).length = l.length) ∧
    (MetricsCollector.addAll []
        (List.replicate 15
          ⟨"model", 100, none, none, none, 0, true, none⟩)).length = 15 := by
  constructor
  · intro l
    rw [metricsAddAll_length]
    simp
  · rw [metricsAddAll_length]
    rfl

/-- Claim C10 (confirmed): `get_summary` on an empty collector returns
exactly the one-entry dict `{"total_requests": 0}`; none of the success-rate,
latency or token statistics (and in particular no division or min/max over an
empty list) appear in the result. -/
theorem C10_empty_summary :
    MetricsCollector.get_summary [] = [("total_requests", 0)] := by
  rfl

/-- Claim C5 (confirmed): if every invocation raises an exception accepted by
`retryable` (its type is in `retryable_exceptions`) and `max_attempts = N ≥ 1`,
the wrapper invokes the function exactly `N` times and then re-raises the
exception of the final call unchanged (the bare `raise` re-raises the caught
object itself). -/
theorem C5_retry_exhausts_attempts (N : Int) (hN : 1 ≤ N)
    (retryable : ε → Bool) (hr : ∀ e, retryable e = true) (jitter : Bool)
    (jitterF : Nat → ℚ) (d bf : ℚ) (errs : Nat → ε) :
    (retry_with_backoff N retryable jitter jitterF d bf
        (fun k => (Except.error (errs k) : Except ε α))).result =
      .exn (errs (N.toNat - 1)) ∧
    (retry_with_backoff N retryable jitter jitterF d bf
        (fun k => (Except.error (errs k) : Except ε α))).calls = N.toNat := by
  unfold retry_with_backoff
  obtain ⟨h1, h2⟩ := retryLoop_all_fail (α := α) N retryable hr jitter jitterF
    bf errs ((N - 1).toNat) 1 (by omega) (by omega) d none 0 []
  have e1 : (0 : Nat) + (N - 1).toNat = N.toNat - 1 := by omega
  have e2 : (0 : Nat) + (N - 1).toNat + 1 = N.toNat := by omega
  rw [e1] at h1
  rw [e2] at h2
  exact ⟨h1, h2⟩

/-- Witness for C5: three attempts, the function raises `k` on its `k`-th
call; three invocations happen and the last exception (2) propagates. -/
theorem C5_retry_exhausts_attempts_witness :
    (retry_with_backoff 3 (fun _ : Nat => true) true (fun _ => 1) 1 2
        (fun k => (Except.error k : Except Nat Unit))).result = .exn 2 ∧
    (retry_with_backoff 3 (fun _ : Nat => true) true (fun _ => 1) 1 2
        (fun k => (Except.error k : Except Nat Unit))).calls = 3 :=
  C5_retry_exhausts_attempts 3 (by decide) (fun _ => true) (fun _ => rfl)
    true (fun _ => 1) 1 2 (fun k => k)

/-- Claim C6 (confirmed): an exception whose type is not in
`retryable_exceptions` is not caught by the `except` clause, so (for any
`max_attempts ≥ 1`, the domain the spec gives for `max_attempts`) it
propagates after exactly one invocation, with no sleep and no retry. -/
theorem C6_nonretryable_propagates (N : Int) (hN : 1 ≤ N)
    (retryable : ε → Bool) (jitter : Bool) (jitterF : Nat → ℚ) (d bf : ℚ)
    (f : Nat → Except ε α) (e₀ : ε) (hf : f 0 = .error e₀)
    (hr : retryable e₀ = false) :
    retry_with_backoff N retryable jitter jitterF d bf f = ⟨.exn e₀, 1, []⟩ := by
  unfold retry_with_backoff
  rw [pyRange_cons 1 (N + 1) (by omega), retryLoop, hf]
  simp [hr]

/-- Witness for C6: `max_attempts = 5`, a non-retryable exception on the first
call; one invocation, no sleeps. -/
theorem C6_nonretryable_propagates_witness :
    retry_with_backoff 5 (fun _ : Nat => false) false (fun _ => 1) 1 2
        (fun _ => (Except.error 7 : Except Nat Unit)) = ⟨.exn 7, 1, []⟩ :=
  C6_nonretryable_propagates 5 (by decide) (fun _ => false) false
    (fun _ => 1) 1 2 (fun _ => Except.error 7) 7 rfl rfl

/-- Claim C9 (confirmed): with `max_attempts < 1` the attempt range
`range(1, max_attempts + 1)` is empty, the wrapped function is never invoked,
`last_exception` stays `None`, the trailing re-raise does not fire and the
wrapper falls through, returning `None` without raising. -/
theorem C9_no_attempts_returns_none (N : Int) (hN : N < 1)
    (retryable : ε → Bool) (jitter : Bool) (jitterF : Nat → ℚ) (d bf : ℚ)
    (f : Nat → Except ε α) :
    retry_with_backoff N retryable jitter jitterF d bf f = ⟨.pyNone, 0, []⟩ := by
  unfold retry_with_backoff
  rw [pyRange_empty 1 (N + 1) (by omega), retryLoop]

/-- Witness for C9 at `max_attempts = 0` with an always-raising function. -/
theorem C9_no_attempts_returns_none_witness :
    retry_with_backoff 0 (fun _ : Nat => true) true (fun _ => 1) 1 2
        (fun _ => (Except.error 1 : Except Nat Unit)) = ⟨.pyNone, 0, []⟩ :=
  C9_no_attempts_returns_none 0 (by decide) (fun _ => true) true
    (fun _ => 1) 1 2 (fun _ => Except.error 1)

/-- Counterexample to claim C3 as stated: redaction is not idempotent.  On
`"password=abc123"` the first pass yields `"password[PASSWORD_REDACTED]"`,
and the password rule re-matches its own placeholder (the label still
precedes it and `[` is in the separator class, `PASSWORD_REDACTED` in the
value class), so a second pass changes the text again. -/
theorem C3_redact_not_idempotent_counterexample :
    ¬(SensitiveDataFilter.filter
        (SensitiveDataFilter.filter "password=abc123") =
      SensitiveDataFilter.filter "password=abc123") := by decide

/-- Claim C3 (amended): redaction is NOT idempotent — the partial-replacement
placeholder of the password rule is re-matched by that same rule on a second
pass.  Concretely, one pass sends `"password=abc123"` to
`"password[PASSWORD_REDACTED]"` and a second pass sends that to
`"password[PASSWORD_REDACTED]]"`. -/
theorem C3_redact_second_pass :
    SensitiveDataFilter.filter "password=abc123" =
      "password[PASSWORD_REDACTED]" ∧
    SensitiveDataFilter.filter "password[PASSWORD_REDACTED]" =
      "password[PASSWORD_REDACTED]]" := by decide

/-- Counterexample to claim C7 as stated: the output of
`redact("password=abc123")` does not keep the prefix `"password="` — the `=`
separator is consumed by the match (only the label word is in group 1), so
the conjunction claimed by C7 is false. -/
theorem C7_password_prefix_counterexample :
    ¬(strContains (SensitiveDataFilter.filter "password=abc123")
        "[PASSWORD_REDACTED]" = true ∧
      strContains (SensitiveDataFilter.filter "password=abc123")
        "abc123" = false ∧
      strContains (SensitiveDataFilter.filter "password=abc123")
        "password=" = true) := by decide

/-- Claim C7 (amended): `redact("password=abc123")` equals
`"password[PASSWORD_REDACTED]"`: it contains `[PASSWORD_REDACTED]`, does not
contain `abc123`, and keeps the label word `password` — but not the `=`
separator, which the match consumes (the capture group holds only the label
word). -/
theorem C7_password_redaction :
    SensitiveDataFilter.filter "password=abc123" =
      "password[PASSWORD_REDACTED]" ∧
    strContains (SensitiveDataFilter.filter "password=abc123")
      "[PASSWORD_REDACTED]" = true ∧
    strContains (SensitiveDataFilter.filter "password=abc123")
      "abc123" = false ∧
    strContains (SensitiveDataFilter.filter "password=abc123")
      "password" = true := by decide

/-- Counterexample to claim C8 as stated at `N = 0`: Python `text[-0:]` is
the whole string, so `mask_partial("ab", 0)` returns `"**ab"` — the full mask
followed by the entire text — not the `"**"` the claim requires. -/
theorem C8_mask_zero_counterexample :
    ¬(maskPartial "ab".toList 0 =
      List.replicate ("ab".toList.length - 0) '*' ++
        takeLast 0 "ab".toList) := by decide

/-- Claim C8 (amended): for every visible-suffix length `N ≥ 1` (and for
`N = 0` on the empty string): if `len(text) ≤ N` the result is all mask
characters of the same length, otherwise `len(text) - N` mask characters
followed by exactly the last `N` characters.  For `N = 0` and non-empty text
the code instead returns the full mask followed by the entire text, because
`text[-0:]` is the whole string. -/
theorem C8_maskPartial_amended (text : List Char) (N : Nat)
    (hN : 1 ≤ N ∨ text = []) :
    (text.length ≤ N → maskPartial text N = List.replicate text.length '*') ∧
    (N < text.length →
      maskPartial text N =
        List.replicate (text.length - N) '*' ++ takeLast N text) := by
  constructor
  · intro hle
    simp [maskPartial, if_pos hle]
  · intro hlt
    have hne : ¬(text.length ≤ N) := by omega
    have hN1 : ¬(N = 0) := by
      rcases hN with h | h
      · omega
      · subst h
        simp at hlt
    simp [maskPartial, if_neg hne, pySliceLast, hN1]

/-- Witness for C8 at `text = "sk-1234567890abcdef"`, `N = 4`. -/
theorem C8_maskPartial_amended_witness :
    maskPartial "sk-1234567890abcdef".toList 4 =
      List.replicate ("sk-1234567890abcdef".toList.length - 4) '*' ++
        takeLast 4 "sk-1234567890abcdef".toList :=
  (C8_maskPartial_amended "sk-1234567890abcdef".toList 4
    (Or.inl (by decide))).2 (by decide)

end AIAgent
